import Mathlib

/-!
# Verification of the femoral-access imaging workflow engine

Shallow embedding of `epic_extractor/femoral_batch.py` and
`epic_extractor/femoral_loop.py`.  Pure computations (date conversion,
selection parsing, study-row scoring, POST-body construction) are embedded
as executable Lean functions; the stateful advance / prefetch logic is
embedded as functions over an explicit environment (the ordered dashboard
record list and a per-record raw fetch result standing for the registry's
responses).  Remote I/O (Safari JS execution, HTTP) is modelled by the data
it returns; the construction of the submitted POST body and of every
printed status line is embedded faithfully.
-/

set_option autoImplicit false

namespace Femoral

/-! ## Python string primitives

Small executable models of the Python string operations the source uses:
`str.split(sep)` for a single-character separator, whitespace `str.split()`,
`str.strip()`, `str.isdigit()` (ASCII digits; the inputs are coordinator
keyboard input), `str.replace(",", "")`, `" ".join`, and `int(...)` (which
accepts an optional sign followed by decimal digits; underscore grouping is
not modelled, it cannot occur in the claims' inputs). -/

/-- `s.split(sep)` for a one-character separator: every occurrence of the
separator starts a new (possibly empty) field. -/
def splitOnChar (sep : Char) : List Char → List (List Char)
  | [] => [[]]
  | c :: cs =>
    let r := splitOnChar sep cs
    if c = sep then [] :: r
    else
      match r with
      | [] => [[c]]
      | h :: t => (c :: h) :: t

/-- `redcap_date.split('-')` lifted to `String`. -/
def pySplitDash (s : String) : List String :=
  (splitOnChar '-' s.toList).map String.mk

/-- `shorthand.split(",")` lifted to `String`. -/
def pySplitComma (s : String) : List String :=
  (splitOnChar ',' s.toList).map String.mk

/-- Helper for `str.split()` (no separator): accumulates the current token
(in reverse) and flushes it at whitespace. -/
def wsSplitAux : List Char → List Char → List String
  | [], cur => if cur.isEmpty then [] else [String.mk cur.reverse]
  | c :: cs, cur =>
    if c.isWhitespace then
      if cur.isEmpty then wsSplitAux cs []
      else String.mk cur.reverse :: wsSplitAux cs []
    else wsSplitAux cs (c :: cur)

/-- Python `str.split()` with no arguments: split on whitespace runs,
producing no empty tokens. -/
def pyWhitespaceSplit (s : String) : List String :=
  wsSplitAux s.toList []

/-- Python `str.strip()`. -/
def pyStrip (s : String) : String :=
  String.mk (((s.toList.dropWhile Char.isWhitespace).reverse.dropWhile
    Char.isWhitespace).reverse)

/-- Python `str.isdigit()` restricted to ASCII input: non-empty and all
characters are decimal digits. -/
def pyIsDigit (s : String) : Bool :=
  !s.toList.isEmpty && s.toList.all Char.isDigit

/-- `last.replace(",", "")`. -/
def stripCommas (s : String) : String :=
  String.mk (s.toList.filter (fun c => c ≠ ','))

/-- `" ".join(parts)`. -/
def joinSpace : List String → String
  | [] => ""
  | [x] => x
  | x :: xs => x ++ " " ++ joinSpace xs

/-- Value of a non-empty all-digit character list. -/
def digitsVal (cs : List Char) : Option Nat :=
  if cs.isEmpty then none
  else if cs.all Char.isDigit then
    some (cs.foldl (fun n c => n * 10 + (c.toNat - '0'.toNat)) 0)
  else none

/-- Python `int(s)`: optional surrounding whitespace, optional sign,
decimal digits; raises `ValueError` (here: `none`) otherwise. -/
def pyInt? (s : String) : Option Int :=
  match (pyStrip s).toList with
  | '-' :: rest => (digitsVal rest).map (fun n => -(n : Int))
  | '+' :: rest => (digitsVal rest).map (fun n => (n : Int))
  | l => (digitsVal l).map (fun n => (n : Int))

/-- JS `desc.toUpperCase()` on the ASCII description text. -/
def strToUpper (s : String) : String :=
  String.mk (s.toList.map Char.toUpper)

/-- JS `s.indexOf(p) === 0`, i.e. `p` is a prefix of `s`. -/
def strStartsWith (p s : String) : Bool :=
  p.toList.isPrefixOf s.toList

/-- JS `desc.substring(0, 30)`. -/
def strTake30 (s : String) : String :=
  String.mk (s.toList.take 30)

/-! ## DateFormatAdapter: `_convert_date_for_nilread`

```python
def _convert_date_for_nilread(redcap_date: str) -> str:
    parts = redcap_date.split('-')
    dt = datetime.date(int(parts[2]), int(parts[0]), int(parts[1]))
    return dt.strftime('%b %d, %Y').lower()
```

`parts[2]` raises `IndexError` when the split yields fewer than three
fields; `int(...)` raises `ValueError` on a non-numeric field;
`datetime.date` validates `1 ≤ year ≤ 9999`, `1 ≤ month ≤ 12` and
`1 ≤ day ≤ days_in_month` and raises `ValueError` otherwise.  Both
exception kinds are caught by the caller (`_fetch_patient_data`), which
turns them into the `"invalid date format"` error; the embedding returns
that error string directly.  Fields past index 2 are never read.
`strftime('%b %d, %Y').lower()` renders the lowercase three-letter month,
the zero-padded two-digit day and the year (years below 1000 are rendered
unpadded by the platform strftime, which the model follows). -/

def isLeapYear (y : Nat) : Bool :=
  y % 4 = 0 && (y % 100 ≠ 0 || y % 400 = 0)

def daysInMonth (y m : Nat) : Nat :=
  if m = 2 then (if isLeapYear y then 29 else 28)
  else if m = 4 || m = 6 || m = 9 || m = 11 then 30
  else 31

def monthAbbrev : Nat → String
  | 1 => "jan" | 2 => "feb" | 3 => "mar" | 4 => "apr"
  | 5 => "may" | 6 => "jun" | 7 => "jul" | 8 => "aug"
  | 9 => "sep" | 10 => "oct" | 11 => "nov" | _ => "dec"

/-- `'%d'`-style zero padding to two digits. -/
def pad2 (n : Nat) : String :=
  if n < 10 then "0" ++ toString n else toString n

def _convert_date_for_nilread (redcap_date : String) : Except String String :=
  if (pySplitDash redcap_date).length < 3 then .error "invalid date format"
  else
    match pyInt? ((pySplitDash redcap_date).getD 2 ""),
          pyInt? ((pySplitDash redcap_date).getD 0 ""),
          pyInt? ((pySplitDash redcap_date).getD 1 "") with
    | some y, some mo, some d =>
      if 1 ≤ y ∧ y ≤ 9999 ∧ 1 ≤ mo ∧ mo ≤ 12 ∧ 1 ≤ d ∧
          d ≤ (daysInMonth y.toNat mo.toNat : Int) then
        .ok (monthAbbrev mo.toNat ++ " " ++ pad2 d.toNat ++ ", " ++
          toString y.toNat)
      else .error "invalid date format"
    | _, _, _ => .error "invalid date format"

/-! ## RegistrySession fetch: `_fetch_patient_data`

The in-page JS returns a record `{record_id, mrn, proc_date,
access_site_1, access_site_2}` (each `""` when the element is absent or
the page request failed) or `{error: message}` when an exception was
thrown; `RawRec` models that JSON payload.  `_fetch_patient_data` then
validates the fields and computes the eligibility boolean. -/

/-- The six access-site radio values that qualify for imaging review
(`FEMORAL_ACCESS_VALUES` in `femoral_batch.py`). -/
def FEMORAL_ACCESS_VALUES : List String := ["1", "2", "3", "11", "12", "13"]

/-- The JSON record produced by the fetch JS for one record id. -/
structure RawRec where
  error : Option String := none
  mrn : String := ""
  proc_date : String := ""
  access_site_1 : String := ""
  access_site_2 : String := ""

/-- The internal patient dict (`_PATIENT_DATA` entry) built on a
successful fetch. -/
structure Patient where
  record_id : String
  mrn : String
  proc_date_redcap : String
  proc_date_nilread : String
  accession : Option String
  access_site_1 : String
  access_site_2 : String
  has_femoral : Bool

/-- `_fetch_patient_data(record_id)`: propagate the JS error, require a
non-empty MRN and procedure date, convert the date, and derive
`has_femoral` from the fixed allow-set. -/
def _fetch_patient_data (record_id : String) (rec : RawRec) :
    Except String Patient :=
  match rec.error with
  | some e => .error e
  | none =>
    if rec.mrn = "" then .error "MRN not found"
    else if rec.proc_date = "" then .error "procedure date not found"
    else
      match _convert_date_for_nilread rec.proc_date with
      | .error _ => .error "invalid date format"
      | .ok nilread_date =>
        .ok { record_id := record_id
              mrn := rec.mrn
              proc_date_redcap := rec.proc_date
              proc_date_nilread := nilread_date
              accession := none
              access_site_1 := rec.access_site_1
              access_site_2 := rec.access_site_2
              has_femoral := FEMORAL_ACCESS_VALUES.contains rec.access_site_1
                || FEMORAL_ACCESS_VALUES.contains rec.access_site_2 }

/-! ## WorkflowEngine advance: `next_patient`

`next_patient` reloads the dashboard, locates the index after the
last-processed identifier, then walks forward: each candidate is loaded
via `load_patient`; records with `has_femoral == False` are skipped with
a log line.  When `load_patient` returns an *error* summary the summary
has no `has_femoral` key, so `summary.get("has_femoral", True)` defaults
to `True` and the loop breaks with `_PATIENT_DATA` still empty; the
subsequent `setup_nilread_search()` then raises
`RuntimeError("No patient loaded. Run load_patient() first.")`, which
escapes `next_patient` (modelled by the `raised` outcome).  The viewer
search / accession extraction / study opening that follow a successful
load act on the viewer only, so the embedding stops at the `selected`
outcome carrying the loaded patient. -/

inductive NextOutcome where
  | noRecords
  | noMoreRecords
  | raised (msg : String)
  | selected (record_id : String) (patient : Patient)

/-- The record-skipping loop of `next_patient` (step 2b), walking the
dashboard suffix starting at the computed index. -/
def advanceLoop (fetchRaw : String → RawRec) : List String → NextOutcome
  | [] => .noMoreRecords
  | rid :: rest =>
    match _fetch_patient_data rid (fetchRaw rid) with
    | .error _ => .raised "No patient loaded. Run load_patient() first."
    | .ok p =>
      if p.has_femoral then .selected rid p
      else advanceLoop fetchRaw rest

/-- Step 2 of `next_patient`: the index to resume from — `0` when there
is no last record or it is absent from the dashboard (with a warning),
else one past its first occurrence. -/
def nextIndex (records : List String) (last_record_id : Option String) :
    Nat :=
  match last_record_id with
  | none => 0
  | some l =>
    match records.indexOf? l with
    | some i => i + 1
    | none => 0

/-- `next_patient(last_record_id)` over a dashboard snapshot `records`
and registry responses `fetchRaw`. -/
def next_patient (records : List String) (fetchRaw : String → RawRec)
    (last_record_id : Option String) : NextOutcome :=
  if records.isEmpty then .noRecords
  else if records.length ≤ nextIndex records last_record_id then
    .noMoreRecords
  else advanceLoop fetchRaw (records.drop (nextIndex records last_record_id))

/-! ## Prefetch pipeline: `preload_next_patient` and
`next_patient_from_prefetch` -/

/-- The tagged dict returned by `preload_next_patient`. -/
inductive PrefetchResult where
  | ready (after_record_id : String) (record_id : String)
      (position : String) (patient_data : Patient)
  | noMoreRecords (after_record_id : String)
  | error (after_record_id : String) (msg : String)

/-- The scanning loop of `preload_next_patient`: fetch each candidate,
skip fetch errors and non-femoral records, return the first eligible
record as `ready`. -/
def preloadLoop (fetchRaw : String → RawRec) (after : String)
    (total : Nat) : Nat → List String → PrefetchResult
  | _, [] => .noMoreRecords after
  | idx, rid :: rest =>
    match _fetch_patient_data rid (fetchRaw rid) with
    | .error _ => preloadLoop fetchRaw after total (idx + 1) rest
    | .ok p =>
      if p.has_femoral then
        .ready after rid (toString (idx + 1) ++ " of " ++ toString total) p
      else preloadLoop fetchRaw after total (idx + 1) rest

/-- The `start_idx` of `preload_next_patient`. -/
def preloadStart (records : List String) (after_record_id : String) : Nat :=
  match records.indexOf? after_record_id with
  | some i => i + 1
  | none => 0

/-- `preload_next_patient(after_record_id)` over a cached dashboard
snapshot (the background task does not force a reload). -/
def preload_next_patient (records : List String)
    (fetchRaw : String → RawRec) (after_record_id : String) :
    PrefetchResult :=
  if records.isEmpty then .error after_record_id "no records"
  else
    preloadLoop fetchRaw after_record_id records.length
      (preloadStart records after_record_id)
      (records.drop (preloadStart records after_record_id))

/-- Which path `next_patient_from_prefetch` takes: install the prefetched
patient and go straight to the viewer search, or fall back to the
synchronous `next_patient(arg)` call with the given argument. -/
inductive AdvancePath where
  | fromPrefetch (patient : Patient) (position : String)
  | sync (arg : Option String)

/-- `next_patient_from_prefetch(last_record_id, prefetch)`: the prefetch
is consumed only when it is `ready`, its `after_record_id` equals
`last_record_id`, and its patient data is present; the defensive
`has_femoral` guard re-routes an ineligible prefetched record to
`next_patient(record_id)`.  Every other shape falls back to
`next_patient(last_record_id)`. -/
def next_patient_from_prefetch (last_record_id : Option String)
    (prefetch : Option PrefetchResult) : AdvancePath :=
  match prefetch with
  | some (.ready after _rid pos p) =>
    if some after = last_record_id then
      if p.has_femoral then .fromPrefetch p pos
      else .sync (some p.record_id)
    else .sync last_record_id
  | _ => .sync last_record_id

/-! ## StudySelector: `_PICK_BEST_ROW_JS` (in `extract_accession`)

A candidate study row is one expanded (`>= 12`-cell) `.dx-data-row`; the
JS reads its description (cell 5), modality (cell 7), image count (cell 9,
`parseInt(...) || 0`, hence a natural number) and accession (cell 3).  The
loop keeps two accumulators: the best *preferred* row (image count `> 1`
and an institutional description prefix, strict-`>` image-count
comparison, threshold starting at `0`) and the overall best row by image
count (threshold starting at `-1`, no other condition).  The final answer
is the preferred accumulator when its accession is a non-empty string,
else the overall accumulator when any row was seen, else nothing (the
caller then reports `"no expanded rows"`).  `open_study` repeats the
identical selection logic to find the row to double-click. -/

structure StudyRow where
  desc : String
  modality : String
  images : Nat
  accession : String

def PREFERRED_PREFIXES : List String :=
  ["NR FL", "HVC NONREPORTABLE", "PV TRANSCATHETER", "PV ANGIOGRAPHY"]

/-- The JS `isPreferred` test: more than one image and an uppercase
description starting with one of the institutional prefixes. -/
def isPreferredRow (r : StudyRow) : Bool :=
  decide (1 < r.images) &&
    PREFERRED_PREFIXES.any (fun p => strStartsWith p (strToUpper r.desc))

/-- The nested ternary computing `prefMatch` from the uppercased
description. -/
def matchName (descUp : String) : String :=
  if strStartsWith "NR FL" descUp then "NR FL"
  else if strStartsWith "HVC NONREPORTABLE" descUp then "HVC NONREPORTABLE"
  else if strStartsWith "PV TRANSCATHETER" descUp then "PV TRANSCATHETER"
  else "PV ANGIOGRAPHY"

/-- Loop state of `_PICK_BEST_ROW_JS`. -/
structure PickState where
  prefAcc : String := ""
  prefImages : Nat := 0
  prefModality : String := ""
  prefDesc : String := ""
  prefMatch : String := ""
  bestAcc : String := ""
  bestImages : Int := -1
  bestModality : String := ""
  bestDesc : String := ""

/-- The conditional update of the preferred accumulator
(`if (isPreferred && imgCount > prefImages)`). -/
def stepPickPref (st : PickState) (r : StudyRow) : PickState :=
  if isPreferredRow r && decide (st.prefImages < r.images) then
    { st with prefAcc := r.accession, prefImages := r.images,
              prefModality := r.modality, prefDesc := strTake30 r.desc,
              prefMatch := matchName (strToUpper r.desc) }
  else st

/-- The conditional update of the overall accumulator
(`if (imgCount > bestImages)`); the preferred update never touches the
`best*` fields, so composing after it reads the unchanged threshold. -/
def stepPickBest (st : PickState) (r : StudyRow) : PickState :=
  if decide (st.bestImages < (r.images : Int)) then
    { st with bestAcc := r.accession, bestImages := (r.images : Int),
              bestModality := r.modality, bestDesc := strTake30 r.desc }
  else st

/-- One iteration of the row loop: conditionally update the preferred
accumulator, then the overall accumulator. -/
def stepPick (st : PickState) (r : StudyRow) : PickState :=
  stepPickBest (stepPickPref st r) r

def pickLoop (st : PickState) (rows : List StudyRow) : PickState :=
  rows.foldl stepPick st

/-- The selector's answer for the operator (`accession`, `images`,
`modality`, `desc_prefix`, `match` in the JSON payload). -/
structure PickResult where
  accession : String
  images : Nat
  modality : String
  descFirst30 : String
  matchRule : String

/-- The complete `_PICK_BEST_ROW_JS` computation over the expanded rows in
encounter order (`st` is the loop's final state). -/
def pickBestRow (rows : List StudyRow) : Option PickResult :=
  if (pickLoop {} rows).prefAcc ≠ "" then
    some ⟨(pickLoop {} rows).prefAcc, (pickLoop {} rows).prefImages,
      (pickLoop {} rows).prefModality, (pickLoop {} rows).prefDesc,
      (pickLoop {} rows).prefMatch⟩
  else if 0 ≤ (pickLoop {} rows).bestImages then
    some ⟨(pickLoop {} rows).bestAcc, (pickLoop {} rows).bestImages.toNat,
      (pickLoop {} rows).bestModality, (pickLoop {} rows).bestDesc,
      "max_images"⟩
  else none

/-- First row attaining the maximum image count (later rows replace the
champion only on a strictly greater count). -/
def maxStep (b x : StudyRow) : StudyRow :=
  if b.images < x.images then x else b

def argmaxFirstImages : List StudyRow → Option StudyRow
  | [] => none
  | r :: rs => some (rs.foldl maxStep r)

/-- Specification-level restatement of the selection rule: among rows with
a preferred prefix *and more than one image*, the first row attaining the
maximum image count wins; when no such row exists the fallback is the
first row attaining the maximum image count among *all* expanded rows,
with no lower bound on the image count. -/
def selectStudySpec (rows : List StudyRow) : Option PickResult :=
  match argmaxFirstImages (rows.filter isPreferredRow) with
  | some p =>
    some ⟨p.accession, p.images, p.modality, strTake30 p.desc,
      matchName (strToUpper p.desc)⟩
  | none =>
    match argmaxFirstImages rows with
    | some b =>
      some ⟨b.accession, b.images, b.modality, strTake30 b.desc,
        "max_images"⟩
    | none => none

/-! ### Abstractions of the two accumulators (used by the proofs)

The preferred accumulator of `stepPick` touches exactly the five
`pref*` fields and the overall accumulator exactly the four `best*`
fields, so each is a left fold of its own step function. -/

structure PrefT where
  acc : String
  images : Nat
  modality : String
  d30 : String
  rule : String

def initPrefT : PrefT := ⟨"", 0, "", "", ""⟩

def rowPrefT (r : StudyRow) : PrefT :=
  ⟨r.accession, r.images, r.modality, strTake30 r.desc,
    matchName (strToUpper r.desc)⟩

def prefStep (t : PrefT) (r : StudyRow) : PrefT :=
  if isPreferredRow r && decide (t.images < r.images) then rowPrefT r else t

def prefProj (st : PickState) : PrefT :=
  ⟨st.prefAcc, st.prefImages, st.prefModality, st.prefDesc, st.prefMatch⟩

structure BestT where
  acc : String
  images : Int
  modality : String
  d30 : String

def initBestT : BestT := ⟨"", -1, "", ""⟩

def rowBestT (r : StudyRow) : BestT :=
  ⟨r.accession, r.images, r.modality, strTake30 r.desc⟩

def bestStep (t : BestT) (r : StudyRow) : BestT :=
  if decide (t.images < (r.images : Int)) then rowBestT r else t

def bestProj (st : PickState) : BestT :=
  ⟨st.bestAcc, st.bestImages, st.bestModality, st.bestDesc⟩

/-- Rename every row's accession (used to state that the selector's
observable output depends on accession values only through their
lengths). -/
def renameRowAcc (f : String → String) (r : StudyRow) : StudyRow :=
  { r with accession := f r.accession }

def renameResAcc (f : String → String) (res : PickResult) : PickResult :=
  { res with accession := f res.accession }

/-! ## SelectionParser: the shorthand grammar in `process_selection`

```
"0"                       → no images (must stand alone)
"t s i[, t s i ...]"      → t ∈ {1,2,3}, s ≥ 1, i ≥ 1
```

The Python loop builds `entries: dict[int, (series, image)]`; a duplicate
type overwrites the earlier entry.  Any malformed segment raises
`ValueError`, which is caught and returned as an `invalid_input` status —
before any side effect has run. -/

structure Entries where
  e0 : Bool := false
  e1 : Option (Int × Int) := none
  e2 : Option (Int × Int) := none
  e3 : Option (Int × Int) := none

/-- `entries[t] = (series, img)` for `t ∈ {1,2,3}` (the only values that
reach this assignment). -/
def applyEntry (en : Entries) (t : Int) (si : Int × Int) : Entries :=
  if t = 1 then { en with e1 := some si }
  else if t = 2 then { en with e2 := some si }
  else { en with e3 := some si }

/-- The `for part in shorthand.split(",")` loop body, aborting at the
first malformed segment. -/
def parseSegs (en : Entries) : List String → Except String Entries
  | [] => .ok en
  | part :: rest =>
    if pyStrip part = "" then .error "Empty segment in selection."
    else if (pyWhitespaceSplit (pyStrip part)).length ≠ 3 then
      .error ("Invalid segment '" ++ pyStrip part ++
        "'. Expected 'type series image'.")
    else
      match pyInt? ((pyWhitespaceSplit (pyStrip part)).getD 0 "") with
      | none =>
        .error ("invalid literal for int() with base 10: '" ++
          (pyWhitespaceSplit (pyStrip part)).getD 0 "" ++ "'")
      | some t =>
        if t ≠ 1 ∧ t ≠ 2 ∧ t ≠ 3 then
          .error ("Invalid image type '" ++
            (pyWhitespaceSplit (pyStrip part)).getD 0 "" ++
            "'. Use 1, 2, or 3 (or '0' alone).")
        else
          match pyInt? ((pyWhitespaceSplit (pyStrip part)).getD 1 "") with
          | none =>
            .error ("invalid literal for int() with base 10: '" ++
              (pyWhitespaceSplit (pyStrip part)).getD 1 "" ++ "'")
          | some series =>
            match pyInt? ((pyWhitespaceSplit (pyStrip part)).getD 2 "") with
            | none =>
              .error ("invalid literal for int() with base 10: '" ++
                (pyWhitespaceSplit (pyStrip part)).getD 2 "" ++ "'")
            | some img =>
              if series < 1 ∨ img < 1 then
                .error ("Invalid segment '" ++ pyStrip part ++
                  "'. Series and image must be positive integers.")
              else parseSegs (applyEntry en t (series, img)) rest

/-- The parsing prefix of `process_selection`: strip, reject empty input,
treat the literal `"0"` as "no images", otherwise parse the
comma-separated segments. -/
def parseShorthand (shorthand : String) : Except String Entries :=
  if pyStrip shorthand = "" then .error "Empty selection."
  else if pyStrip shorthand = "0" then .ok { e0 := true }
  else parseSegs {} (pySplitComma (pyStrip shorthand))

/-- A comma-separated segment the parser accepts: exactly three
whitespace tokens, a type in `{1,2,3}`, a series and an image that parse
as integers `≥ 1`. -/
def segWellFormed (part : String) : Bool :=
  (pyWhitespaceSplit (pyStrip part)).length = 3 &&
    (match pyInt? ((pyWhitespaceSplit (pyStrip part)).getD 0 ""),
           pyInt? ((pyWhitespaceSplit (pyStrip part)).getD 1 ""),
           pyInt? ((pyWhitespaceSplit (pyStrip part)).getD 2 "") with
     | some t, some s, some i =>
       (t = 1 || t = 2 || t = 3) && decide (1 ≤ s) && decide (1 ≤ i)
     | _, _, _ => false)

/-! ## RegistrySession save: the two POST-body builders

Both save cycles run one in-page JS block: GET the form page, extract the
CSRF token and every `<input type="hidden">` name/value pair, then POST a
form-encoded body.  `FormRead` models what the GET yielded (the hidden
fields as the JS object: distinct names in insertion order; the three
`*_measurement` text inputs that `process_selection` additionally
queries, `none` when the input is absent).  Parameters are modelled as
raw name/value pairs; `encodeURIComponent` is an injective transport
encoding and is left out. -/

structure FormRead where
  csrf : String
  hiddenFields : List (String × String)
  needle_measurement : Option String := none
  angio_measurement : Option String := none
  other_ind_measurement : Option String := none

/-- JS `m && m.value.trim()` on a measurement input. -/
def measurementPresent : Option String → Bool
  | none => false
  | some v => pyStrip v ≠ ""

def RADIO_FIELDS : List String :=
  ["image_needle_saved", "access_angio_saved", "image_other_ind_saved"]

def FORM_PAGE : String := "femoral_access_imaging"

/-- `skipFields` of `save_to_redcap`: the three classification flags and
the annotation field. -/
def saveSkipFields : List String :=
  RADIO_FIELDS ++ ["incl_excl_comments"]

/-- `skipFields` of the save inside `process_selection`: additionally the
accession field and the six series/image locator fields. -/
def processSkipFields : List String :=
  RADIO_FIELDS ++
    ["incl_excl_comments", "accession_number",
     "angio_series_number", "angio_image_number",
     "needle_series_num", "needle_image_number",
     "other_ind_series_number", "other_ind_image_number"]

/-- The `for (var key in hiddenFields)` copy loop: every extracted hidden
field except the CSRF token (re-pushed separately) and the skip list. -/
def keptHiddenFields (skip : List String)
    (hidden : List (String × String)) : List (String × String) :=
  hidden.filter
    (fun kv => kv.1 ≠ "redcap_csrf_token" && !(skip.contains kv.1))

/-- The parameters `save_to_redcap` pushes after the copied hidden
fields: the accession, the three flags, the optional annotation, the
completion status and the submit markers. -/
def saveTailFields (accession : Option String) (selection : List Nat)
    (comments : String) : List (String × String) :=
  [("accession_number", accession.getD ""),
   ("image_needle_saved",
     toString (if (if selection.contains 0 then ([] : List Nat)
       else selection).contains 1 then 1 else 0)),
   ("access_angio_saved",
     toString (if (if selection.contains 0 then ([] : List Nat)
       else selection).contains 2 then 1 else 0)),
   ("image_other_ind_saved",
     toString (if (if selection.contains 0 then ([] : List Nat)
       else selection).contains 3 then 1 else 0))]
  ++ (if comments ≠ "" then [("incl_excl_comments", comments)] else [])
  ++ [(FORM_PAGE ++ "_complete",
        toString (if selection.contains 0 then 2 else 1)),
      ("submit-action", "submit-btn-saverecord"),
      ("submit-btn-saverecord", "Save+%26+Exit+Record")]

/-- The POST body built by `save_to_redcap(index, selection, comments)`.
`selection` is the coordinator's set of ints; `0` means "no images" and
clears the rest.  The completion status is `2` (Complete) when "no
images", else `1` (Unverified), with no reference to the form's
measurement values. -/
def save_to_redcap_params (form : FormRead) (accession : Option String)
    (selection : List Nat) (comments : String) : List (String × String) :=
  ("redcap_csrf_token", form.csrf)
    :: keptHiddenFields saveSkipFields form.hiddenFields
    ++ saveTailFields accession selection comments

/-- The completion status computed inside `process_selection`'s save JS:
`2` when "no images"; otherwise `2` when every *selected* image type's
measurement input on the fetched form already holds a non-blank value,
else `1`. -/
def processFormComplete (no_images needle angio other : Bool)
    (form : FormRead) : Nat :=
  if no_images then 2
  else if (!needle || measurementPresent form.needle_measurement) &&
      (!angio || measurementPresent form.angio_measurement) &&
      (!other || measurementPresent form.other_ind_measurement) then 2
  else 1

/-- `sent_series_image_fields`, in the dict's insertion order
(needle, angiogram, other), only for types present in the entries. -/
def seriesImageFields (en : Entries) : List (String × String) :=
  (match en.e1 with
   | some (s, i) =>
     [("needle_series_num", toString s), ("needle_image_number", toString i)]
   | none => []) ++
  (match en.e2 with
   | some (s, i) =>
     [("angio_series_number", toString s), ("angio_image_number", toString i)]
   | none => []) ++
  (match en.e3 with
   | some (s, i) =>
     [("other_ind_series_number", toString s),
      ("other_ind_image_number", toString i)]
   | none => [])

/-- The parameters the `process_selection` save pushes after the copied
hidden fields: accession, flags, the present series/image locators, the
optional stripped annotation, the measurement-aware completion status and
the submit markers. -/
def processTailFields (form : FormRead) (accession : Option String)
    (en : Entries) (comments : String) : List (String × String) :=
  [("accession_number", accession.getD ""),
   ("image_needle_saved", toString (if en.e1.isSome then 1 else 0)),
   ("access_angio_saved", toString (if en.e2.isSome then 1 else 0)),
   ("image_other_ind_saved", toString (if en.e3.isSome then 1 else 0))]
  ++ seriesImageFields en
  ++ (if pyStrip comments ≠ "" then
        [("incl_excl_comments", pyStrip comments)] else [])
  ++ [(FORM_PAGE ++ "_complete",
        toString (processFormComplete en.e0 en.e1.isSome en.e2.isSome
          en.e3.isSome form)),
      ("submit-action", "submit-btn-saverecord"),
      ("submit-btn-saverecord", "Save+%26+Exit+Record")]

/-- The POST body built by the save step of `process_selection`.
`accession` is the patient's accession at save time (step 3 re-extracts
it beforehand; a failed re-extraction leaves the previous value, and the
body is still submitted). -/
def process_selection_params (form : FormRead) (accession : Option String)
    (en : Entries) (comments : String) : List (String × String) :=
  ("redcap_csrf_token", form.csrf)
    :: keptHiddenFields processSkipFields form.hiddenFields
    ++ processTailFields form accession en comments

/-! ## `process_selection` as a whole

Outcome plus the side effects it performed: whether the viewer export ran
(step 1), whether `return_to_directory` ran (step 2), the POST body
submitted to the registry (step 4, `none` when no write happened), and
whether the download-folder rename ran (step 5).  All validation happens
before the first side effect. -/

inductive ProcStatus where
  | invalidInput (msg : String)
  | saved (form_complete : Nat)

structure ProcResult where
  status : ProcStatus
  exported : Bool
  returnedToDirectory : Bool
  posted : Option (List (String × String))
  renamedDownload : Bool

def process_selection (form : FormRead) (accession : Option String)
    (shorthand comments : String) : ProcResult :=
  match parseShorthand shorthand with
  | .error msg => ⟨.invalidInput msg, false, false, none, false⟩
  | .ok en =>
    if en.e0 && (en.e1.isSome || en.e2.isSome || en.e3.isSome) then
      ⟨.invalidInput "Selection '0' cannot be combined with other image types.",
        false, false, none, false⟩
    else
      ⟨.saved (processFormComplete en.e0 en.e1.isSome en.e2.isSome
          en.e3.isSome form),
        en.e2.isSome, true,
        some (process_selection_params form accession en comments),
        en.e2.isSome⟩

/-- The interactive loop's reaction to the save result
(`femoral_loop.main`): on an `invalid_input` status it prints the error
and `continue`s — the engine does not advance; otherwise it advances. -/
def loopAdvancesAfterSave (r : ProcResult) : Bool :=
  match r.status with
  | .invalidInput _ => false
  | .saved _ => true

/-! ## InteractiveLoop input parsing: `_parse_input` -/

/-- `_parse_input(line)` from `femoral_loop.py`: the last
whitespace-separated token is split off as a free-text comment only when
there are at least two tokens and the token, with commas removed, is not
purely numeric; otherwise the whole stripped line is the shorthand. -/
def _parse_input (line : String) : String × String :=
  match (pyWhitespaceSplit (pyStrip line)).getLast? with
  | none => ("", "")
  | some last =>
    if decide (1 < (pyWhitespaceSplit (pyStrip line)).length) &&
        !pyIsDigit (stripCommas last) then
      (joinSpace (pyWhitespaceSplit (pyStrip line)).dropLast, last)
    else (pyStrip line, "")

/-! ## Observable outputs (stdout + sanitized summaries)

Per the PHI rules in the module docstring, only record ids, lengths and
status strings reach stdout or the returned summaries.  Each `*_obs`
function reproduces the printed status line and the sanitized summary of
the corresponding operation's main path. -/

inductive LoadSummary where
  | err (record_id : String) (error : String)
  | ok (record_id : String) (mrn_len : Nat) (date_len : Nat)
      (has_femoral : Bool)
  deriving DecidableEq

/-- `load_patient(record_id)`: printed line and returned summary. -/
def load_patient_obs (record_id : String) (raw : RawRec) :
    String × LoadSummary :=
  match _fetch_patient_data record_id raw with
  | .error e =>
    ("  [WARN] Record " ++ record_id ++ ": " ++ e, .err record_id e)
  | .ok p =>
    ("  Loaded Record " ++ record_id ++ " (MRN: " ++
      toString p.mrn.length ++ " chars, date: " ++
      toString p.proc_date_redcap.length ++ " chars, femoral=" ++
      (if p.has_femoral then "yes" else "NO — skip") ++ ")",
     .ok record_id p.mrn.length p.proc_date_redcap.length p.has_femoral)

structure SetupSummary where
  status : String
  mrn_len : Nat
  date_len : Nat

/-- `setup_nilread_search()` success path: printed line and returned
summary (the error paths echo only the viewer's own result strings,
which do not involve patient fields). -/
def setup_nilread_search_obs (p : Patient) : String × SetupSummary :=
  ("  Record " ++ p.record_id ++ ": NilRead search set (MRN: " ++
    toString p.mrn.length ++ " chars, date: " ++
    toString p.proc_date_nilread.length ++ " chars)",
   ⟨"set", p.mrn.length, p.proc_date_nilread.length⟩)

inductive ExtractSummary where
  | err (error : String)
  | found (acc_len : Nat) (images : Nat) (modality : String)
      (descFirst30 : String) (matchRule : String)

/-- The printed line and summary `extract_accession` derives from the
selector's answer (the accession appears only as a length). -/
def extract_pick_obs (record_id : String) :
    Option PickResult → String × ExtractSummary
  | none =>
    ("  [WARN] Record " ++ record_id ++ ": no rows found",
     .err "no rows found")
  | some res =>
    if res.accession = "" then
      ("  [WARN] Record " ++ record_id ++ ": accession empty",
       .err "accession empty")
    else
      ("  Record " ++ record_id ++ ": accession extracted (" ++
        toString res.accession.length ++ " chars, " ++ res.descFirst30 ++
        ", " ++ res.modality ++ ", " ++ toString res.images ++
        " images, matched=" ++ res.matchRule ++ ")",
       .found res.accession.length res.images res.modality
         res.descFirst30 res.matchRule)

/-- `extract_accession()` over the expanded candidate rows: printed line
and returned summary. -/
def extract_accession_obs (record_id : String) (rows : List StudyRow) :
    String × ExtractSummary :=
  extract_pick_obs record_id (pickBestRow rows)

inductive SaveSummary where
  | saved (record_id : String) (http_status : Nat)
  | unknown (record_id : String) (http_status : Nat)

/-- `save_to_redcap` printed line and returned summary, given the HTTP
status the registry answered with (the accession appears only as a
length; Python's `{comments!r}` is rendered with plain quotes). -/
def save_to_redcap_obs (record_id : String) (accession : Option String)
    (selection : List Nat) (comments : String) (http_status : Nat) :
    String × SaveSummary :=
  let no_images := selection.contains 0
  let sel := if no_images then ([] : List Nat) else selection
  let needle : Nat := if sel.contains 1 then 1 else 0
  let angio : Nat := if sel.contains 2 then 1 else 0
  let other : Nat := if sel.contains 3 then 1 else 0
  let acc_len := (accession.getD "").length
  if http_status = 200 ∨ http_status = 302 then
    let comment_note :=
      if comments ≠ "" then ", comments='" ++ comments ++ "'" else ""
    let status_label := if no_images then "Complete" else "Unverified"
    ("  Record " ++ record_id ++ ": saved (accession: " ++
      toString acc_len ++ " chars, needle=" ++ toString needle ++
      ", angio=" ++ toString angio ++ ", other=" ++ toString other ++
      comment_note ++ ", complete=" ++ status_label ++ ") → HTTP " ++
      toString http_status,
     .saved record_id http_status)
  else
    ("  [WARN] Record " ++ record_id ++ ": unexpected HTTP " ++
      toString http_status,
     .unknown record_id http_status)

/-! ## Helper lemmas -/

theorem str_eq_empty_iff_length (s : String) : s = "" ↔ s.length = 0 := by
  constructor
  · intro h; subst h; rfl
  · intro h
    cases s with
    | mk data =>
      cases data with
      | nil => rfl
      | cons c cs => simp [String.length] at h

theorem ne_empty_of_length_eq {s t : String} (h : s.length = t.length)
    (ht : t ≠ "") : s ≠ "" := by
  intro hs
  exact ht (((str_eq_empty_iff_length t).2
    (h ▸ (str_eq_empty_iff_length s).1 hs)))

/-- A successful fetch records the requested id, the raw fields, and the
allow-set eligibility boolean. -/
theorem _fetch_patient_data_ok {rid : String} {raw : RawRec} {p : Patient}
    (h : _fetch_patient_data rid raw = .ok p) :
    p.record_id = rid ∧
    p.has_femoral = (FEMORAL_ACCESS_VALUES.contains raw.access_site_1
      || FEMORAL_ACCESS_VALUES.contains raw.access_site_2) := by
  unfold _fetch_patient_data at h
  split at h
  · cases h
  · split at h
    · cases h
    · split at h
      · cases h
      · split at h
        · cases h
        · cases h
          exact ⟨rfl, rfl⟩

/-- The record-skipping loop only selects an eligible record it actually
fetched. -/
theorem advanceLoop_selected {fetchRaw : String → RawRec}
    {l : List String} {rid : String} {p : Patient}
    (h : advanceLoop fetchRaw l = .selected rid p) :
    _fetch_patient_data rid (fetchRaw rid) = .ok p ∧
      p.has_femoral = true := by
  induction l with
  | nil => cases h
  | cons r rest ih =>
    unfold advanceLoop at h
    split at h
    · cases h
    · rename_i q hf
      split at h
      · rename_i hq
        cases h
        exact ⟨hf, hq⟩
      · exact ih h

/-- `next_patient` only selects an eligible record it actually fetched. -/
theorem next_patient_selected {records : List String}
    {fetchRaw : String → RawRec} {last : Option String} {rid : String}
    {p : Patient}
    (h : next_patient records fetchRaw last = .selected rid p) :
    _fetch_patient_data rid (fetchRaw rid) = .ok p ∧
      p.has_femoral = true := by
  unfold next_patient at h
  split at h
  · cases h
  · split at h
    · cases h
    · exact advanceLoop_selected h

/-- A `ready` prefetch result carries its own `after` tag, and a patient
that was fetched for that record id and passed the eligibility filter. -/
theorem preloadLoop_ready {fetchRaw : String → RawRec}
    {after : String} {total : Nat} {idx : Nat} {l : List String}
    {a rid pos : String} {p : Patient}
    (h : preloadLoop fetchRaw after total idx l = .ready a rid pos p) :
    a = after ∧ _fetch_patient_data rid (fetchRaw rid) = .ok p ∧
      p.has_femoral = true := by
  induction l generalizing idx with
  | nil => cases h
  | cons r rest ih =>
    unfold preloadLoop at h
    split at h
    · exact ih h
    · rename_i q hf
      split at h
      · rename_i hq
        cases h
        exact ⟨rfl, hf, hq⟩
      · exact ih h

theorem preload_ready {records : List String}
    {fetchRaw : String → RawRec} {after a rid pos : String} {p : Patient}
    (h : preload_next_patient records fetchRaw after = .ready a rid pos p) :
    a = after ∧ _fetch_patient_data rid (fetchRaw rid) = .ok p ∧
      p.has_femoral = true := by
  unfold preload_next_patient at h
  split at h
  · cases h
  · exact preloadLoop_ready h

/-! ### Fold characterisation of the study-row pick loop -/

theorem isPreferredRow_images {r : StudyRow}
    (h : isPreferredRow r = true) : 1 < r.images := by
  unfold isPreferredRow at h
  simp only [Bool.and_eq_true, decide_eq_true_eq] at h
  exact h.1

theorem prefProj_stepPickBest (st : PickState) (r : StudyRow) :
    prefProj (stepPickBest st r) = prefProj st := by
  unfold stepPickBest
  split <;> rfl

theorem bestProj_stepPickPref (st : PickState) (r : StudyRow) :
    bestProj (stepPickPref st r) = bestProj st := by
  unfold stepPickPref
  split <;> rfl

theorem prefProj_stepPick (st : PickState) (r : StudyRow) :
    prefProj (stepPick st r) = prefStep (prefProj st) r := by
  obtain ⟨pa, pi, pm, pd, pr, ba, bi, bm, bd⟩ := st
  unfold stepPick
  rw [prefProj_stepPickBest]
  simp only [stepPickPref, prefStep, prefProj, rowPrefT]
  split <;> rfl

theorem bestProj_stepPick (st : PickState) (r : StudyRow) :
    bestProj (stepPick st r) = bestStep (bestProj st) r := by
  obtain ⟨pa, pi, pm, pd, pr, ba, bi, bm, bd⟩ := st
  simp only [stepPick, stepPickPref, stepPickBest, bestStep, bestProj,
    rowBestT]
  split <;> split <;> rfl

theorem prefProj_pickLoop (rows : List StudyRow) :
    ∀ st, prefProj (pickLoop st rows) = rows.foldl prefStep (prefProj st) := by
  induction rows with
  | nil => intro st; rfl
  | cons r rs ih =>
    intro st
    show prefProj (pickLoop (stepPick st r) rs) = _
    rw [ih (stepPick st r), prefProj_stepPick]
    rfl

theorem bestProj_pickLoop (rows : List StudyRow) :
    ∀ st, bestProj (pickLoop st rows) = rows.foldl bestStep (bestProj st) := by
  induction rows with
  | nil => intro st; rfl
  | cons r rs ih =>
    intro st
    show bestProj (pickLoop (stepPick st r) rs) = _
    rw [ih (stepPick st r), bestProj_stepPick]
    rfl

/-- Non-preferred rows never move the preferred accumulator, so the fold
can be restricted to the preferred rows. -/
theorem foldl_prefStep_filter (rows : List StudyRow) :
    ∀ t, rows.foldl prefStep t =
      (rows.filter isPreferredRow).foldl prefStep t := by
  induction rows with
  | nil => intro t; rfl
  | cons r rs ih =>
    intro t
    by_cases h : isPreferredRow r = true
    · rw [List.foldl_cons, List.filter_cons_of_pos h, List.foldl_cons, ih]
    · have h' : isPreferredRow r = false := by
        revert h; cases isPreferredRow r <;> simp
      rw [List.foldl_cons, List.filter_cons_of_neg (by simp [h']), ih]
      have : prefStep t r = t := by unfold prefStep; rw [h']; rfl
      rw [this]

theorem foldl_prefStep_row (l : List StudyRow) :
    ∀ b : StudyRow, (∀ r ∈ l, isPreferredRow r = true) →
      l.foldl prefStep (rowPrefT b) = rowPrefT (l.foldl maxStep b) := by
  induction l with
  | nil => intro b _; rfl
  | cons r rs ih =>
    intro b hall
    have hr : isPreferredRow r = true := hall r (List.mem_cons_self r rs)
    have htail : ∀ x ∈ rs, isPreferredRow x = true :=
      fun x hx => hall x (List.mem_cons_of_mem r hx)
    rw [List.foldl_cons, List.foldl_cons]
    by_cases hbi : b.images < r.images
    · have h1 : prefStep (rowPrefT b) r = rowPrefT r := by
        unfold prefStep rowPrefT
        rw [hr]
        simp [hbi]
      have h2 : maxStep b r = r := by unfold maxStep; rw [if_pos hbi]
      rw [h1, h2, ih r htail]
    · have h1 : prefStep (rowPrefT b) r = rowPrefT b := by
        unfold prefStep rowPrefT
        rw [hr]
        simp [hbi]
      have h2 : maxStep b r = b := by unfold maxStep; rw [if_neg hbi]
      rw [h1, h2, ih b htail]

theorem foldl_prefStep_init (l : List StudyRow)
    (hall : ∀ r ∈ l, isPreferredRow r = true) :
    l.foldl prefStep initPrefT =
      (match l with
       | [] => initPrefT
       | r :: rs => rowPrefT (rs.foldl maxStep r)) := by
  cases l with
  | nil => rfl
  | cons r rs =>
    have hr : isPreferredRow r = true := hall r (List.mem_cons_self r rs)
    have h0 : prefStep initPrefT r = rowPrefT r := by
      unfold prefStep initPrefT
      rw [hr]
      have : 0 < r.images := Nat.lt_of_lt_of_le Nat.zero_lt_one
        (Nat.le_of_lt (isPreferredRow_images hr))
      simp [this]
    rw [List.foldl_cons, h0]
    exact foldl_prefStep_row rs r
      (fun x hx => hall x (List.mem_cons_of_mem r hx))

theorem foldl_bestStep_row (l : List StudyRow) :
    ∀ b : StudyRow,
      l.foldl bestStep (rowBestT b) = rowBestT (l.foldl maxStep b) := by
  induction l with
  | nil => intro b; rfl
  | cons r rs ih =>
    intro b
    rw [List.foldl_cons, List.foldl_cons]
    by_cases hbi : b.images < r.images
    · have h1 : bestStep (rowBestT b) r = rowBestT r := by
        unfold bestStep rowBestT
        simp [hbi]
      have h2 : maxStep b r = r := by unfold maxStep; rw [if_pos hbi]
      rw [h1, h2, ih r]
    · have h1 : bestStep (rowBestT b) r = rowBestT b := by
        unfold bestStep rowBestT
        simp [hbi]
      have h2 : maxStep b r = b := by unfold maxStep; rw [if_neg hbi]
      rw [h1, h2, ih b]

theorem foldl_bestStep_init (l : List StudyRow) :
    l.foldl bestStep initBestT =
      (match l with
       | [] => initBestT
       | r :: rs => rowBestT (rs.foldl maxStep r)) := by
  cases l with
  | nil => rfl
  | cons r rs =>
    have h0 : bestStep initBestT r = rowBestT r := by
      unfold bestStep initBestT rowBestT
      have : (-1 : Int) < (r.images : Int) := by
        have := Int.ofNat_nonneg r.images
        omega
      simp [this]
    rw [List.foldl_cons, h0]
    exact foldl_bestStep_row rs r

theorem foldl_maxStep_mem (l : List StudyRow) :
    ∀ b : StudyRow, l.foldl maxStep b ∈ b :: l := by
  induction l with
  | nil => intro b; exact List.mem_cons_self b []
  | cons r rs ih =>
    intro b
    rw [List.foldl_cons]
    by_cases h : b.images < r.images
    · have hm : maxStep b r = r := by unfold maxStep; rw [if_pos h]
      rw [hm]
      exact List.mem_cons_of_mem b (ih r)
    · have hm : maxStep b r = b := by unfold maxStep; rw [if_neg h]
      rw [hm]
      rcases List.mem_cons.mp (ih b) with h1 | h1
      · rw [h1]; exact List.mem_cons_self b (r :: rs)
      · exact List.mem_cons_of_mem b (List.mem_cons_of_mem r h1)

/-! ## Claim theorems -/

/-- **C2** (corrected).  The selection rule of `extract_accession` /
`open_study`, for rows whose accession cells are non-empty: among rows
with a preferred description prefix *and more than one image*, the first
row attaining the maximum image count is chosen; when no such row exists,
the fallback is the first row attaining the maximum image count among
*all* expanded rows — the more-than-one-image filter does **not** apply to
the fallback, so a single-image row can be chosen (see the
counterexample). -/
theorem c2_study_selection_amended (rows : List StudyRow)
    (h : ∀ r ∈ rows, r.accession ≠ "") :
    pickBestRow rows = selectStudySpec rows := by
  have hpref : prefProj (pickLoop {} rows) = rows.foldl prefStep initPrefT :=
    prefProj_pickLoop rows {}
  have hbest : bestProj (pickLoop {} rows) = rows.foldl bestStep initBestT :=
    bestProj_pickLoop rows {}
  have hAcc : (pickLoop {} rows).prefAcc =
      (rows.foldl prefStep initPrefT).acc := congrArg PrefT.acc hpref
  have hImg : (pickLoop {} rows).prefImages =
      (rows.foldl prefStep initPrefT).images := congrArg PrefT.images hpref
  have hMod : (pickLoop {} rows).prefModality =
      (rows.foldl prefStep initPrefT).modality := congrArg PrefT.modality hpref
  have hDesc : (pickLoop {} rows).prefDesc =
      (rows.foldl prefStep initPrefT).d30 := congrArg PrefT.d30 hpref
  have hRule : (pickLoop {} rows).prefMatch =
      (rows.foldl prefStep initPrefT).rule := congrArg PrefT.rule hpref
  have hbAcc : (pickLoop {} rows).bestAcc =
      (rows.foldl bestStep initBestT).acc := congrArg BestT.acc hbest
  have hbImg : (pickLoop {} rows).bestImages =
      (rows.foldl bestStep initBestT).images := congrArg BestT.images hbest
  have hbMod : (pickLoop {} rows).bestModality =
      (rows.foldl bestStep initBestT).modality := congrArg BestT.modality hbest
  have hbDesc : (pickLoop {} rows).bestDesc =
      (rows.foldl bestStep initBestT).d30 := congrArg BestT.d30 hbest
  unfold pickBestRow selectStudySpec
  rw [hAcc, hImg, hMod, hDesc, hRule, hbAcc, hbImg, hbMod, hbDesc]
  cases hf : rows.filter isPreferredRow with
  | nil =>
    have hfold : rows.foldl prefStep initPrefT = initPrefT := by
      rw [foldl_prefStep_filter, hf]
      rfl
    rw [hfold]
    have : ¬ (initPrefT.acc ≠ "") := by simp [initPrefT]
    rw [if_neg this]
    cases rows with
    | nil => rfl
    | cons r rs =>
      have hb : (r :: rs).foldl bestStep initBestT =
          rowBestT (rs.foldl maxStep r) := foldl_bestStep_init (r :: rs)
      rw [hb]
      have hpos : (0 : Int) ≤ (rowBestT (rs.foldl maxStep r)).images := by
        simp [rowBestT]
      rw [if_pos hpos]
      simp [rowBestT, argmaxFirstImages, Int.toNat_ofNat]
  | cons p ps =>
    have hall : ∀ x ∈ p :: ps, isPreferredRow x = true := by
      intro x hx
      have : x ∈ rows.filter isPreferredRow := hf ▸ hx
      exact List.of_mem_filter this
    have hfold : rows.foldl prefStep initPrefT =
        rowPrefT (ps.foldl maxStep p) := by
      rw [foldl_prefStep_filter, hf]
      exact foldl_prefStep_init (p :: ps) hall
    rw [hfold]
    have hw : ps.foldl maxStep p ∈ p :: ps := foldl_maxStep_mem ps p
    have hwrows : ps.foldl maxStep p ∈ rows :=
      List.mem_of_mem_filter (hf ▸ hw)
    have hne : (rowPrefT (ps.foldl maxStep p)).acc ≠ "" := h _ hwrows
    rw [if_pos hne]
    simp [rowPrefT, argmaxFirstImages]


/-- **C2 counterexample**: with a single ultrasound row carrying exactly
one image, the selector still picks it (rule `"max_images"`), although
the claim says a row carrying a single image is never chosen. -/
theorem c2_single_image_cex :
    pickBestRow [⟨"US Doppler", "US", 1, "A1"⟩] =
      some ⟨"A1", 1, "US", "US Doppler", "max_images"⟩ := rfl

/-- **C2 witness**: the amended theorem applied to the specification's own
test vector (the preferred row with the highest qualifying count wins). -/
theorem c2_study_selection_witness :
    pickBestRow [⟨"US Doppler", "US", 5, "A1"⟩, ⟨"NR FL Angio", "XA", 1, "A2"⟩,
        ⟨"NR FL Angio", "XA", 4, "A3"⟩] =
      selectStudySpec [⟨"US Doppler", "US", 5, "A1"⟩,
        ⟨"NR FL Angio", "XA", 1, "A2"⟩, ⟨"NR FL Angio", "XA", 4, "A3"⟩] ∧
    selectStudySpec [⟨"US Doppler", "US", 5, "A1"⟩,
        ⟨"NR FL Angio", "XA", 1, "A2"⟩, ⟨"NR FL Angio", "XA", 4, "A3"⟩] =
      some ⟨"A3", 4, "XA", "NR FL Angio", "NR FL"⟩ :=
  ⟨c2_study_selection_amended _ (by decide), rfl⟩


theorem fetch_not_femoral {rid : String} {raw : RawRec} {p : Patient}
    (h1 : FEMORAL_ACCESS_VALUES.contains raw.access_site_1 = false)
    (h2 : FEMORAL_ACCESS_VALUES.contains raw.access_site_2 = false)
    (h : _fetch_patient_data rid raw = .ok p) : p.has_femoral = false := by
  have := (_fetch_patient_data_ok h).2
  rw [this, h1, h2]
  rfl

theorem fromPrefetch_ready {last : Option String}
    {pf : Option PrefetchResult} {p : Patient} {pos : String}
    (h : next_patient_from_prefetch last pf = .fromPrefetch p pos) :
    ∃ after rid, pf = some (.ready after rid pos p) ∧ some after = last := by
  rcases pf with _ | pf
  · cases h
  · rcases pf with ⟨after, rid, pos', pdata⟩ | a | ⟨a, m⟩
    · simp only [next_patient_from_prefetch] at h
      by_cases hm : some after = last
      · rw [if_pos hm] at h
        by_cases hf : pdata.has_femoral = true
        · rw [if_pos hf] at h
          injection h with hp hpos
          exact ⟨after, rid, by rw [hp, hpos], hm⟩
        · rw [if_neg hf] at h; cases h
      · rw [if_neg hm] at h; cases h
    · cases h
    · cases h

/-- **C3** (confirmed).  A ready prefetch tagged `after = A` is consumed
only when the engine's last-processed identifier equals `A`: (1) any
prefetch result with no matching ready tag — stale `after`, still running
(`none`), error, or exhaustion — falls back to the synchronous
`next_patient(last)`; (2) whenever the prefetched patient is installed,
the result was ready with a matching `after` tag; (3) a ready result
actually produced by `preload_next_patient` whose tag matches is
consumed. -/
theorem c3_prefetch_staleness :
    (∀ (last : Option String) (pf : Option PrefetchResult),
      (∀ after rid pos p,
        pf = some (.ready after rid pos p) → some after ≠ last) →
      next_patient_from_prefetch last pf = .sync last) ∧
    (∀ (last : Option String) (pf : Option PrefetchResult) (p : Patient)
        (pos : String),
      next_patient_from_prefetch last pf = .fromPrefetch p pos →
      ∃ after rid, pf = some (.ready after rid pos p) ∧ some after = last) ∧
    (∀ (records : List String) (fetchRaw : String → RawRec)
        (after a rid pos : String) (p : Patient) (last : Option String),
      preload_next_patient records fetchRaw after = .ready a rid pos p →
      last = some a →
      next_patient_from_prefetch last
        (some (preload_next_patient records fetchRaw after)) =
        .fromPrefetch p pos) := by
  refine ⟨?_, ?_, ?_⟩
  · intro last pf hstale
    rcases pf with _ | pf
    · rfl
    · rcases pf with ⟨after, rid, pos, pdata⟩ | a | ⟨a, m⟩
      · simp only [next_patient_from_prefetch]
        rw [if_neg (hstale after rid pos pdata rfl)]
      · rfl
      · rfl
  · intro last pf p pos h
    exact fromPrefetch_ready h
  · intro records fetchRaw after a rid pos p last hready hlast
    obtain ⟨ha, hfetch, hfem⟩ := preload_ready hready
    rw [hready]
    simp only [next_patient_from_prefetch]
    subst hlast
    rw [if_pos rfl, if_pos hfem]

/-- **C4** (confirmed).  A record whose two access-site codes are both
outside the six-code femoral allow-set has `has_femoral = false`, is never
selected by the synchronous advance, is never surfaced as a ready
prefetch, and is never installed from a prefetch. -/
theorem c4_eligibility_filter :
    (∀ (rid : String) (raw : RawRec) (p : Patient),
      FEMORAL_ACCESS_VALUES.contains raw.access_site_1 = false →
      FEMORAL_ACCESS_VALUES.contains raw.access_site_2 = false →
      _fetch_patient_data rid raw = .ok p → p.has_femoral = false) ∧
    (∀ (records : List String) (fetchRaw : String → RawRec)
        (last : Option String) (rid : String) (p : Patient),
      FEMORAL_ACCESS_VALUES.contains (fetchRaw rid).access_site_1 = false →
      FEMORAL_ACCESS_VALUES.contains (fetchRaw rid).access_site_2 = false →
      next_patient records fetchRaw last ≠ .selected rid p) ∧
    (∀ (records : List String) (fetchRaw : String → RawRec)
        (after a rid pos : String) (p : Patient),
      FEMORAL_ACCESS_VALUES.contains (fetchRaw rid).access_site_1 = false →
      FEMORAL_ACCESS_VALUES.contains (fetchRaw rid).access_site_2 = false →
      preload_next_patient records fetchRaw after ≠ .ready a rid pos p) ∧
    (∀ (records : List String) (fetchRaw : String → RawRec)
        (after rid : String) (last : Option String) (p : Patient)
        (pos : String),
      FEMORAL_ACCESS_VALUES.contains (fetchRaw rid).access_site_1 = false →
      FEMORAL_ACCESS_VALUES.contains (fetchRaw rid).access_site_2 = false →
      next_patient_from_prefetch last
        (some (preload_next_patient records fetchRaw after)) =
        .fromPrefetch p pos →
      p.record_id ≠ rid) := by
  refine ⟨?_, ?_, ?_, ?_⟩
  · intro rid raw p h1 h2 hok
    exact fetch_not_femoral h1 h2 hok
  · intro records fetchRaw last rid p h1 h2 hsel
    obtain ⟨hok, hfem⟩ := next_patient_selected hsel
    rw [fetch_not_femoral h1 h2 hok] at hfem
    cases hfem
  · intro records fetchRaw after a rid pos p h1 h2 hready
    obtain ⟨_, hok, hfem⟩ := preload_ready hready
    rw [fetch_not_femoral h1 h2 hok] at hfem
    cases hfem
  · intro records fetchRaw after rid last p pos h1 h2 hcons hid
    obtain ⟨a', rid', hpf, _⟩ := fromPrefetch_ready hcons
    have hpre : preload_next_patient records fetchRaw after =
        .ready a' rid' pos p := Option.some.inj hpf
    obtain ⟨_, hok, hfem⟩ := preload_ready hpre
    have hrid : p.record_id = rid' := (_fetch_patient_data_ok hok).1
    rw [hid] at hrid
    rw [← hrid] at hok
    rw [fetch_not_femoral h1 h2 hok] at hfem
    cases hfem

/-- **C6** (code bug).  A record whose registry fetch fails with a
field-specific error (here: missing MRN): `load_patient` returns an error
summary with no `has_femoral` key, so `next_patient`'s skip loop breaks as
if the record had loaded, and the subsequent `setup_nilread_search()`
raises `RuntimeError` — the error is not surfaced in a returned status and
the exception escapes the advance (the interactive loop calls
`next_patient` unguarded, terminating the process), contradicting
`next_patient`'s own docstring (`Returns: ... or {"error": str}`) and §7
of the spec. -/
theorem c6_fetch_error_raises :
    _fetch_patient_data "100"
      { error := none, mrn := "", proc_date := "01-15-2024",
        access_site_1 := "1", access_site_2 := "" } =
      .error "MRN not found" ∧
    next_patient ["100"]
      (fun _ => ({ error := none, mrn := "", proc_date := "01-15-2024",
                   access_site_1 := "1", access_site_2 := "" } : RawRec))
      none =
      .raised "No patient loaded. Run load_patient() first." :=
  ⟨rfl, rfl⟩


/-- **C3 witness**: a matching ready prefetch produced by
`preload_next_patient` is consumed; a stale one falls back to the
synchronous path. -/
theorem c3_prefetch_staleness_witness :
    next_patient_from_prefetch (some "1")
      (some (preload_next_patient ["1", "2"]
        (fun _ => ({ error := none, mrn := "M", proc_date := "01-15-2024",
                     access_site_1 := "1", access_site_2 := "" } : RawRec))
        "1")) =
      .fromPrefetch
        ⟨"2", "M", "01-15-2024", "jan 15, 2024", none, "1", "", true⟩
        "2 of 2" ∧
    next_patient_from_prefetch (some "9")
      (some (.ready "1" "2" "2 of 2"
        ⟨"2", "M", "01-15-2024", "jan 15, 2024", none, "1", "", true⟩)) =
      .sync (some "9") :=
  ⟨c3_prefetch_staleness.2.2 ["1", "2"]
      (fun _ => ({ error := none, mrn := "M", proc_date := "01-15-2024",
                   access_site_1 := "1", access_site_2 := "" } : RawRec))
      "1" "1" "2" "2 of 2"
      ⟨"2", "M", "01-15-2024", "jan 15, 2024", none, "1", "", true⟩
      (some "1") rfl rfl,
   c3_prefetch_staleness.1 (some "9")
      (some (.ready "1" "2" "2 of 2"
        ⟨"2", "M", "01-15-2024", "jan 15, 2024", none, "1", "", true⟩))
      (by intro after rid pos p h; cases h; decide)⟩

/-- **C4 witness**: a record with access-site codes `"5"` / `"9"` is
ineligible and is not selected by the synchronous advance. -/
theorem c4_eligibility_filter_witness :
    (⟨"100", "123", "01-15-2024", "jan 15, 2024", none, "5", "9",
        false⟩ : Patient).has_femoral = false ∧
    next_patient ["100"]
      (fun _ => ({ error := none, mrn := "123", proc_date := "01-15-2024",
                   access_site_1 := "5", access_site_2 := "9" } : RawRec))
      none ≠
      .selected "100"
        ⟨"100", "123", "01-15-2024", "jan 15, 2024", none, "5", "9",
          false⟩ :=
  ⟨c4_eligibility_filter.1 "100"
      ({ error := none, mrn := "123", proc_date := "01-15-2024",
         access_site_1 := "5", access_site_2 := "9" } : RawRec)
      ⟨"100", "123", "01-15-2024", "jan 15, 2024", none, "5", "9", false⟩
      (by decide) (by decide) rfl,
   c4_eligibility_filter.2.1 ["100"]
      (fun _ => ({ error := none, mrn := "123", proc_date := "01-15-2024",
                   access_site_1 := "5", access_site_2 := "9" } : RawRec))
      none "100"
      ⟨"100", "123", "01-15-2024", "jan 15, 2024", none, "5", "9", false⟩
      (by decide) (by decide)⟩


theorem parseSegs_ok_wellformed {parts : List String} :
    ∀ {en en' : Entries}, parseSegs en parts = .ok en' →
      ∀ part ∈ parts, segWellFormed part = true := by
  induction parts with
  | nil => intro en en' _ part hp; cases hp
  | cons part rest ih =>
    intro en en' h q hq
    unfold parseSegs at h
    split at h
    · cases h
    · split at h
      · cases h
      · split at h
        · cases h
        · rename_i t hInt0
          split at h
          · cases h
          · split at h
            · cases h
            · rename_i series hInt1
              split at h
              · cases h
              · rename_i img hInt2
                split at h
                · cases h
                · rcases List.mem_cons.mp hq with h1 | h1
                  · subst h1
                    rename_i hne hlen htype hrange
                    unfold segWellFormed
                    rw [hInt0, hInt1, hInt2]
                    have hlen' : (pyWhitespaceSplit (pyStrip q)).length = 3 := by
                      omega
                    have ht : t = 1 ∨ t = 2 ∨ t = 3 := by tauto
                    have hs : 1 ≤ series := by omega
                    have hi : 1 ≤ img := by omega
                    simp [hlen', hs, hi]
                    rcases ht with h | h | h <;> simp [h]
                  · exact ih h q h1


/-- **C5** (confirmed).  Malformed shorthand — any parse error, including
the segment `"0"` combined with another segment (its single token fails
the three-token check), a wrong token count, a type outside `{1,2,3}`, or
a series/image below 1 — makes `process_selection` return the
`invalid_input` status with **no** side effect (no export, no
return-to-directory, no registry POST, no download rename), and the
interactive loop then does not advance.  Part 2: whenever some
comma-separated segment of a non-`"0"` input is not well-formed, the
outcome is such an effect-free `invalid_input`. -/
theorem c5_invalid_selection_no_effects :
    (∀ (form : FormRead) (accession : Option String)
        (shorthand comments msg : String),
      parseShorthand shorthand = .error msg →
      process_selection form accession shorthand comments =
        ⟨.invalidInput msg, false, false, none, false⟩ ∧
      loopAdvancesAfterSave
        (process_selection form accession shorthand comments) = false) ∧
    (∀ (form : FormRead) (accession : Option String)
        (shorthand comments : String),
      pyStrip shorthand ≠ "0" →
      (∃ part ∈ pySplitComma (pyStrip shorthand),
        segWellFormed part = false) →
      ∃ msg, process_selection form accession shorthand comments =
        ⟨.invalidInput msg, false, false, none, false⟩) := by
  constructor
  · intro form accession shorthand comments msg hp
    constructor
    · unfold process_selection
      rw [hp]
    · unfold loopAdvancesAfterSave process_selection
      rw [hp]
  · intro form accession shorthand comments h0 hbad
    obtain ⟨part, hmem, hpart⟩ := hbad
    cases hps : parseShorthand shorthand with
    | error m =>
      refine ⟨m, ?_⟩
      unfold process_selection
      rw [hps]
    | ok en =>
      exfalso
      unfold parseShorthand at hps
      by_cases h1 : pyStrip shorthand = ""
      · rw [if_pos h1] at hps
        cases hps
      · rw [if_neg h1, if_neg h0] at hps
        have := parseSegs_ok_wellformed hps part hmem
        rw [hpart] at this
        cases this

/-- **C5 witness**: `"1 0 5"` (series below 1) and `"0, 1 1 5"`
(`"0"` combined with another segment) both yield effect-free
`invalid_input` results, and the loop does not advance. -/
theorem c5_invalid_selection_witness :
    process_selection ⟨"T", [], none, none, none⟩ none "1 0 5" "" =
      ⟨.invalidInput
        "Invalid segment '1 0 5'. Series and image must be positive integers.",
        false, false, none, false⟩ ∧
    loopAdvancesAfterSave
      (process_selection ⟨"T", [], none, none, none⟩ none "1 0 5" "") =
      false ∧
    (∃ msg, process_selection ⟨"T", [], none, none, none⟩ none
        "0, 1 1 5" "" = ⟨.invalidInput msg, false, false, none, false⟩) :=
  ⟨(c5_invalid_selection_no_effects.1 ⟨"T", [], none, none, none⟩ none
      "1 0 5" ""
      "Invalid segment '1 0 5'. Series and image must be positive integers."
      rfl).1,
   (c5_invalid_selection_no_effects.1 ⟨"T", [], none, none, none⟩ none
      "1 0 5" ""
      "Invalid segment '1 0 5'. Series and image must be positive integers."
      rfl).2,
   c5_invalid_selection_no_effects.2 ⟨"T", [], none, none, none⟩ none
      "0, 1 1 5" "" (by decide) ⟨"0", by decide, by decide⟩⟩

theorem parseSegs_e0 {parts : List String} :
    ∀ {en en' : Entries}, parseSegs en parts = .ok en' → en'.e0 = en.e0 := by
  induction parts with
  | nil => intro en en' h; cases h; rfl
  | cons part rest ih =>
    intro en en' h
    unfold parseSegs at h
    split at h
    · cases h
    · split at h
      · cases h
      · split at h
        · cases h
        · split at h
          · cases h
          · split at h
            · cases h
            · split at h
              · cases h
              · split at h
                · cases h
                · have := ih h
                  rw [this]
                  unfold applyEntry
                  split
                  · rfl
                  · split <;> rfl

theorem parseShorthand_ok_guard {s : String} {en : Entries}
    (h : parseShorthand s = .ok en) :
    (en.e0 && (en.e1.isSome || en.e2.isSome || en.e3.isSome)) = false := by
  unfold parseShorthand at h
  split at h
  · cases h
  · split at h
    · cases h; rfl
    · have h0 : en.e0 = false := parseSegs_e0 h
      rw [h0]
      rfl

/-- **C1** (corrected).  The completion status submitted by
`save_to_redcap` is `2` (Complete) exactly when `0` ("no images") is in
the selection and `1` (Unverified) otherwise, regardless of the form's
measurement values — as the claim says.  But the save cycle inside
`process_selection` computes a different status: `2` when "no images"
**or** when every selected image type's measurement input on the fetched
form already holds a non-blank value, and `1` only otherwise (see the
counterexample). -/
theorem c1_completion_status_amended :
    (∀ (form : FormRead) (accession : Option String) (selection : List Nat)
        (comments : String),
      (FORM_PAGE ++ "_complete",
        toString (if selection.contains 0 then 2 else 1)) ∈
        save_to_redcap_params form accession selection comments) ∧
    (∀ (form : FormRead) (accession : Option String)
        (shorthand comments : String) (en : Entries),
      parseShorthand shorthand = .ok en →
      (process_selection form accession shorthand comments).posted =
        some (process_selection_params form accession en comments) ∧
      (FORM_PAGE ++ "_complete",
        toString (processFormComplete en.e0 en.e1.isSome en.e2.isSome
          en.e3.isSome form)) ∈
        process_selection_params form accession en comments ∧
      (processFormComplete en.e0 en.e1.isSome en.e2.isSome en.e3.isSome
          form = 2 ↔
        (en.e0 = true ∨
          ((en.e1.isSome = true →
            measurementPresent form.needle_measurement = true) ∧
           (en.e2.isSome = true →
            measurementPresent form.angio_measurement = true) ∧
           (en.e3.isSome = true →
            measurementPresent form.other_ind_measurement = true)))) ∧
      (processFormComplete en.e0 en.e1.isSome en.e2.isSome en.e3.isSome
          form = 2 ∨
       processFormComplete en.e0 en.e1.isSome en.e2.isSome en.e3.isSome
          form = 1)) := by
  constructor
  · intro form accession selection comments
    simp [save_to_redcap_params, saveTailFields, List.mem_append]
  · intro form accession shorthand comments en hps
    refine ⟨?_, ?_, ?_, ?_⟩
    · unfold process_selection
      rw [hps]
      have hg := parseShorthand_ok_guard hps
      simp [hg]
    · simp [process_selection_params, processTailFields, List.mem_append]
    · cases h0 : en.e0
      · simp only [processFormComplete, h0]
        cases h1 : en.e1.isSome <;> cases h2 : en.e2.isSome <;>
          cases h3 : en.e3.isSome <;>
          cases m1 : measurementPresent form.needle_measurement <;>
          cases m2 : measurementPresent form.angio_measurement <;>
          cases m3 : measurementPresent form.other_ind_measurement <;>
          simp
      · simp [processFormComplete, h0]
    · unfold processFormComplete
      split
      · left; rfl
      · split
        · left; rfl
        · right; rfl

/-- **C1 counterexample**: saving classification `{angiogram}` through
`process_selection` against a form whose `angio_measurement` is already
`"5.0"` submits completion status `2` (Complete), not `1` (Unverified) —
the claim's "regardless of any measurement values already present"
fails. -/
theorem c1_completion_status_cex :
    (process_selection ⟨"T", [], none, some "5.0", none⟩ (some "ACC7")
        "2 1 23" "").status = .saved 2 ∧
    (FORM_PAGE ++ "_complete", "2") ∈
      process_selection_params ⟨"T", [], none, some "5.0", none⟩
        (some "ACC7") ⟨false, none, some (1, 23), none⟩ "" ∧
    ¬ (FORM_PAGE ++ "_complete", "1") ∈
      process_selection_params ⟨"T", [], none, some "5.0", none⟩
        (some "ACC7") ⟨false, none, some (1, 23), none⟩ "" :=
  ⟨rfl, by decide, by decide⟩

/-- **C1 witness**: `save_to_redcap` submits `2` for selection `{0}` and
`1` for `{angiogram}`; the `process_selection` POST body for `"0"` is the
one built by `process_selection_params`. -/
theorem c1_completion_status_witness :
    ("femoral_access_imaging_complete", "2") ∈
      save_to_redcap_params ⟨"T", [], none, none, none⟩ none [0] "" ∧
    ("femoral_access_imaging_complete", "1") ∈
      save_to_redcap_params ⟨"T", [], none, none, none⟩ none [2] "" ∧
    (process_selection ⟨"T", [], none, none, none⟩ none "0" "").posted =
      some (process_selection_params ⟨"T", [], none, none, none⟩ none
        ⟨true, none, none, none⟩ "") :=
  by
  refine ⟨?_, ?_, ?_⟩
  · exact c1_completion_status_amended.1 ⟨"T", [], none, none, none⟩
      none [0] ""
  · exact c1_completion_status_amended.1 ⟨"T", [], none, none, none⟩
      none [2] ""
  · exact (c1_completion_status_amended.2 ⟨"T", [], none, none, none⟩
      none "0" "" ⟨true, none, none, none⟩ rfl).1

/-- Every parameter `save_to_redcap` pushes after the hidden-field
copy has one of eight fixed names. -/
theorem saveTailFields_keys {accession : Option String}
    {selection : List Nat} {comments k v : String}
    (h : (k, v) ∈ saveTailFields accession selection comments) :
    k ∈ (["accession_number", "image_needle_saved", "access_angio_saved",
      "image_other_ind_saved", "incl_excl_comments",
      FORM_PAGE ++ "_complete", "submit-action",
      "submit-btn-saverecord"] : List String) := by
  unfold saveTailFields at h
  by_cases hc : comments ≠ ""
  · rw [if_pos hc] at h
    simp only [List.mem_append, List.mem_cons, List.not_mem_nil,
      Prod.mk.injEq] at h
    simp only [List.mem_cons, List.not_mem_nil]
    tauto
  · rw [if_neg hc] at h
    simp only [List.mem_append, List.mem_cons, List.not_mem_nil,
      Prod.mk.injEq] at h
    simp only [List.mem_cons, List.not_mem_nil]
    tauto

/-- **C7** (corrected).  For `save_to_redcap` the claim holds: the body
holds the freshness token, and apart from the freshly pushed fields it
holds exactly the extracted hidden fields outside the four-name exclusion
list (three classification flags + annotation), values unchanged.  The
save inside `process_selection`, however, uses a *larger* exclusion list
that additionally drops `accession_number` and the six series/image
locator fields (see the counterexample); hidden fields outside that
larger list are still preserved. -/
theorem c7_hidden_fields_amended :
    (∀ (form : FormRead) (accession : Option String) (selection : List Nat)
        (comments : String) (k v : String),
      (k, v) ∈ save_to_redcap_params form accession selection comments →
      ¬ k ∈ (["accession_number", "image_needle_saved",
          "access_angio_saved", "image_other_ind_saved",
          "incl_excl_comments", FORM_PAGE ++ "_complete", "submit-action",
          "submit-btn-saverecord"] : List String) →
      ((k = "redcap_csrf_token" ∧ v = form.csrf) ∨
        ((k, v) ∈ form.hiddenFields ∧ ¬ k ∈ saveSkipFields))) ∧
    (∀ (form : FormRead) (accession : Option String) (selection : List Nat)
        (comments : String) (k v : String),
      (k, v) ∈ form.hiddenFields → ¬ k ∈ saveSkipFields →
      k ≠ "redcap_csrf_token" →
      (k, v) ∈ save_to_redcap_params form accession selection comments) ∧
    (∀ (form : FormRead) (accession : Option String) (selection : List Nat)
        (comments : String),
      ("redcap_csrf_token", form.csrf) ∈
        save_to_redcap_params form accession selection comments) ∧
    (∀ (form : FormRead) (accession : Option String) (en : Entries)
        (comments : String) (k v : String),
      (k, v) ∈ form.hiddenFields → ¬ k ∈ processSkipFields →
      k ≠ "redcap_csrf_token" →
      (k, v) ∈ process_selection_params form accession en comments) := by
  refine ⟨?_, ?_, ?_, ?_⟩
  · intro form accession selection comments k v h hk
    rcases List.mem_cons.mp h with h1 | h1
    · exact Or.inl ⟨congrArg Prod.fst h1, congrArg Prod.snd h1⟩
    · rcases List.mem_append.mp h1 with h2 | h2
      · have hm := List.mem_filter.mp h2
        refine Or.inr ⟨hm.1, ?_⟩
        intro hmem
        have hb := hm.2
        simp only [Bool.and_eq_true] at hb
        have hcont : saveSkipFields.contains k = true :=
          List.elem_eq_true_of_mem hmem
        rw [hcont] at hb
        simp at hb
      · exact absurd (saveTailFields_keys h2) hk
  · intro form accession selection comments k v h hk hcsrf
    refine List.mem_cons.mpr (Or.inr (List.mem_append.mpr (Or.inl ?_)))
    refine List.mem_filter.mpr ⟨h, ?_⟩
    have hcont : saveSkipFields.contains k = false := by
      rw [← Bool.not_eq_true]
      intro hcc
      exact hk (List.mem_of_elem_eq_true hcc)
    simp only [Bool.and_eq_true, Bool.not_eq_true', decide_eq_true_eq]
    exact ⟨hcsrf, hcont⟩
  · intro form accession selection comments
    exact List.mem_cons_self _ _
  · intro form accession en comments k v h hk hcsrf
    refine List.mem_cons.mpr (Or.inr (List.mem_append.mpr (Or.inl ?_)))
    refine List.mem_filter.mpr ⟨h, ?_⟩
    have hcont : processSkipFields.contains k = false := by
      rw [← Bool.not_eq_true]
      intro hcc
      exact hk (List.mem_of_elem_eq_true hcc)
    simp only [Bool.and_eq_true, Bool.not_eq_true', decide_eq_true_eq]
    exact ⟨hcsrf, hcont⟩

/-- **C7 counterexample**: a hidden field `other_ind_series_number` —
not one of the claim's four excluded fields — is dropped from the
`process_selection` POST body (the selection contains only the angiogram
type, so no replacement value is pushed either). -/
theorem c7_hidden_fields_cex :
    ¬ ("other_ind_series_number", "7") ∈
      process_selection_params
        ⟨"T", [("other_ind_series_number", "7")], none, none, none⟩
        (some "A") ⟨false, none, some (1, 23), none⟩ "" ∧
    ¬ "other_ind_series_number" ∈ saveSkipFields :=
  ⟨by decide, by decide⟩

/-- **C7 witness**: an unrelated hidden field (`patient_dob`) is
preserved by both save cycles, and the freshness token is present. -/
theorem c7_hidden_fields_witness :
    ("patient_dob", "X") ∈
      save_to_redcap_params ⟨"T", [("patient_dob", "X")], none, none, none⟩
        none [2] "" ∧
    ("redcap_csrf_token", "T") ∈
      save_to_redcap_params ⟨"T", [("patient_dob", "X")], none, none, none⟩
        none [2] "" ∧
    ("patient_dob", "X") ∈
      process_selection_params
        ⟨"T", [("patient_dob", "X")], none, none, none⟩ none
        ⟨false, none, some (1, 23), none⟩ "" := by
  refine ⟨?_, ?_, ?_⟩
  · exact c7_hidden_fields_amended.2.1
      ⟨"T", [("patient_dob", "X")], none, none, none⟩ none [2] ""
      "patient_dob" "X" (by decide) (by decide) (by decide)
  · exact c7_hidden_fields_amended.2.2.1
      ⟨"T", [("patient_dob", "X")], none, none, none⟩ none [2] ""
  · exact c7_hidden_fields_amended.2.2.2
      ⟨"T", [("patient_dob", "X")], none, none, none⟩ none
      ⟨false, none, some (1, 23), none⟩ "" "patient_dob" "X"
      (by decide) (by decide) (by decide)

/-- **C8** (corrected).  When the dash-split of the input has at least
three fields whose first three parse as integers forming a valid
month/day/year, the conversion returns the lowercase `"mon dd, yyyy"`
string — fields *past the third are ignored*, so a segment count above
three does not fail (see the counterexample).  Fewer than three segments,
a non-integer among the first three, or an out-of-range month always
yield the malformed-date error. -/
theorem c8_date_conversion_amended :
    (∀ (s a b c : String) (mo d y : Int),
      pySplitDash s = [a, b, c] →
      pyInt? a = some mo → pyInt? b = some d → pyInt? c = some y →
      1 ≤ y → y ≤ 9999 → 1 ≤ mo → mo ≤ 12 → 1 ≤ d →
      d ≤ (daysInMonth y.toNat mo.toNat : Int) →
      _convert_date_for_nilread s =
        .ok (monthAbbrev mo.toNat ++ " " ++ pad2 d.toNat ++ ", " ++
          toString y.toNat)) ∧
    (∀ s : String, (pySplitDash s).length < 3 →
      _convert_date_for_nilread s = .error "invalid date format") ∧
    (∀ (s : String) (mo : Int),
      pyInt? ((pySplitDash s).getD 0 "") = some mo → (mo < 1 ∨ 12 < mo) →
      _convert_date_for_nilread s = .error "invalid date format") ∧
    (∀ s : String,
      (pyInt? ((pySplitDash s).getD 0 "") = none ∨
       pyInt? ((pySplitDash s).getD 1 "") = none ∨
       pyInt? ((pySplitDash s).getD 2 "") = none) →
      _convert_date_for_nilread s = .error "invalid date format") := by
  refine ⟨?_, ?_, ?_, ?_⟩
  · intro s a b c mo d y hsplit h0 h1 h2 hy1 hy2 hm1 hm2 hd1 hd2
    unfold _convert_date_for_nilread
    rw [hsplit]
    rw [if_neg (by simp)]
    have e2 : pyInt? (([a, b, c] : List String).getD 2 "") = some y := h2
    have e0 : pyInt? (([a, b, c] : List String).getD 0 "") = some mo := h0
    have e1 : pyInt? (([a, b, c] : List String).getD 1 "") = some d := h1
    rw [e2, e0, e1]
    exact if_pos ⟨hy1, hy2, hm1, hm2, hd1, hd2⟩
  · intro s hlen
    unfold _convert_date_for_nilread
    rw [if_pos hlen]
  · intro s mo h hrange
    unfold _convert_date_for_nilread
    by_cases hlen : (pySplitDash s).length < 3
    · rw [if_pos hlen]
    · rw [if_neg hlen]
      rcases hc2 : pyInt? ((pySplitDash s).getD 2 "") with _ | y <;>
        rcases hc1 : pyInt? ((pySplitDash s).getD 1 "") with _ | d <;>
          rw [h]
      exact if_neg (by rintro ⟨_, _, hm1', hm2', _, _⟩; omega)
  · intro s hnone
    unfold _convert_date_for_nilread
    by_cases hlen : (pySplitDash s).length < 3
    · rw [if_pos hlen]
    · rw [if_neg hlen]
      rcases hc2 : pyInt? ((pySplitDash s).getD 2 "") with _ | y <;>
        rcases hc0 : pyInt? ((pySplitDash s).getD 0 "") with _ | mo <;>
          rcases hc1 : pyInt? ((pySplitDash s).getD 1 "") with _ | d <;>
            simp_all

/-- **C8 counterexample**: `"01-02-2024-9"` has four dash-segments, yet
the conversion succeeds (`parts[3]` is never read), contradicting the
claim that any segment count other than three fails. -/
theorem c8_extra_segment_cex :
    _convert_date_for_nilread "01-02-2024-9" = .ok "jan 02, 2024" ∧
    (pySplitDash "01-02-2024-9").length = 4 := ⟨rfl, rfl⟩

/-- **C8 witness**: a canonical valid date converts; too few segments, a
bad month and a non-numeric month all fail. -/
theorem c8_date_conversion_witness :
    _convert_date_for_nilread "01-15-2024" = .ok "jan 15, 2024" ∧
    _convert_date_for_nilread "01-2024" = .error "invalid date format" ∧
    _convert_date_for_nilread "13-15-2024" = .error "invalid date format" ∧
    _convert_date_for_nilread "ab-15-2024" = .error "invalid date format" := by
  refine ⟨?_, ?_, ?_, ?_⟩
  · exact c8_date_conversion_amended.1 "01-15-2024" "01" "15" "2024"
      1 15 2024 rfl rfl rfl rfl (by decide) (by decide) (by decide)
      (by decide) (by decide) (by decide)
  · exact c8_date_conversion_amended.2.1 "01-2024" (by decide)
  · exact c8_date_conversion_amended.2.2.1 "13-15-2024" 13 rfl
      (by decide)
  · exact c8_date_conversion_amended.2.2.2 "ab-15-2024" (Or.inl rfl)

/-- **C10** (confirmed).  `_parse_input`: a line with exactly one
whitespace token is returned whole (stripped) as shorthand with an empty
annotation, even when the token is non-numeric; the trailing token is
split off as an annotation exactly when the line has at least two tokens
and the last token, with commas removed, is not purely numeric. -/
theorem c10_parse_input :
    (∀ line : String, (pyWhitespaceSplit (pyStrip line)).length = 1 →
      _parse_input line = (pyStrip line, "")) ∧
    (∀ line last : String,
      (pyWhitespaceSplit (pyStrip line)).getLast? = some last →
      (2 ≤ (pyWhitespaceSplit (pyStrip line)).length ∧
          pyIsDigit (stripCommas last) = false →
        _parse_input line =
          (joinSpace (pyWhitespaceSplit (pyStrip line)).dropLast, last)) ∧
      ((pyWhitespaceSplit (pyStrip line)).length < 2 ∨
          pyIsDigit (stripCommas last) = true →
        _parse_input line = (pyStrip line, ""))) := by
  constructor
  · intro line h1
    obtain ⟨x, hx⟩ := List.length_eq_one.mp h1
    unfold _parse_input
    rw [hx]
    rfl
  · intro line last hl
    constructor
    · rintro ⟨hlen, hdig⟩
      unfold _parse_input
      rw [hl]
      have hcond : (decide (1 < (pyWhitespaceSplit (pyStrip line)).length) &&
          !pyIsDigit (stripCommas last)) = true := by
        rw [hdig]
        simp
        omega
      exact if_pos hcond
    · intro h
      unfold _parse_input
      rw [hl]
      have hcond : (decide (1 < (pyWhitespaceSplit (pyStrip line)).length) &&
          !pyIsDigit (stripCommas last)) = false := by
        rcases h with h | h
        · have : decide (1 < (pyWhitespaceSplit (pyStrip line)).length)
              = false := by
            simp
            omega
          rw [this]
          rfl
        · rw [h]
          simp
      exact if_neg (by simp [hcond])

/-- **C10 witness**: the single non-numeric token `"redo"` stays
shorthand; `"DSA"` is split off as an annotation; a numeric last token is
not. -/
theorem c10_parse_input_witness :
    _parse_input "redo" = ("redo", "") ∧
    _parse_input "2 1 23 DSA" = ("2 1 23", "DSA") ∧
    _parse_input "2 1 23" = ("2 1 23", "") := by
  refine ⟨?_, ?_, ?_⟩
  · exact c10_parse_input.1 "redo" rfl
  · exact (c10_parse_input.2 "2 1 23 DSA" "DSA" rfl).1 ⟨by decide, rfl⟩
  · exact (c10_parse_input.2 "2 1 23" "23" rfl).2 (Or.inr rfl)

/-- Rename the two accession-valued fields of the pick-loop state. -/
def renameSt (f : String → String) (st : PickState) : PickState :=
  { st with prefAcc := f st.prefAcc, bestAcc := f st.bestAcc }

theorem stepPick_rename (f : String → String) (st : PickState)
    (r : StudyRow) :
    stepPick (renameSt f st) (renameRowAcc f r) =
      renameSt f (stepPick st r) := by
  obtain ⟨pa, pi, pm, pd, pr, ba, bi, bm, bd⟩ := st
  obtain ⟨rd, rm, ri, ra⟩ := r
  simp only [stepPick, stepPickPref, stepPickBest, renameSt, renameRowAcc,
    isPreferredRow]
  split <;> split <;> rfl

theorem pickLoop_rename (f : String → String) (rows : List StudyRow) :
    ∀ st, pickLoop (renameSt f st) (rows.map (renameRowAcc f)) =
      renameSt f (pickLoop st rows) := by
  induction rows with
  | nil => intro st; rfl
  | cons r rs ih =>
    intro st
    show pickLoop (stepPick (renameSt f st) (renameRowAcc f r))
        (rs.map (renameRowAcc f)) = _
    rw [stepPick_rename]
    exact ih (stepPick st r)

theorem pickBestRow_rename {f : String → String}
    (hf : ∀ s, (f s).length = s.length) (rows : List StudyRow) :
    pickBestRow (rows.map (renameRowAcc f)) =
      (pickBestRow rows).map (renameResAcc f) := by
  have hinit : renameSt f {} = {} := by
    unfold renameSt
    have h0 : f "" = "" := by
      rw [str_eq_empty_iff_length]
      rw [hf ""]
      rfl
    simp [h0]
  have hloop : pickLoop {} (rows.map (renameRowAcc f)) =
      renameSt f (pickLoop {} rows) := by
    conv_lhs => rw [← hinit]
    rw [pickLoop_rename]
  unfold pickBestRow
  rw [hloop]
  have hpa : (renameSt f (pickLoop {} rows)).prefAcc =
      f (pickLoop {} rows).prefAcc := rfl
  by_cases hne : (pickLoop {} rows).prefAcc = ""
  · have hne' : (renameSt f (pickLoop {} rows)).prefAcc = "" := by
      rw [hpa, hne, str_eq_empty_iff_length, hf]
      rfl
    have h1 : ¬ ((renameSt f (pickLoop {} rows)).prefAcc ≠ "") := by
      simp [hne']
    have h2 : ¬ ((pickLoop {} rows).prefAcc ≠ "") := by simp [hne]
    rw [if_neg h1, if_neg h2]
    by_cases hb : (0 : Int) ≤ (pickLoop {} rows).bestImages
    · rw [if_pos hb, if_pos (show (0 : Int) ≤
        (renameSt f (pickLoop {} rows)).bestImages from hb)]
      rfl
    · rw [if_neg hb, if_neg (show ¬ (0 : Int) ≤
        (renameSt f (pickLoop {} rows)).bestImages from hb)]
      rfl
  · have hne' : ¬ (renameSt f (pickLoop {} rows)).prefAcc = "" := by
      rw [hpa, str_eq_empty_iff_length, hf, ← str_eq_empty_iff_length]
      exact hne
    rw [if_pos (show (renameSt f (pickLoop {} rows)).prefAcc ≠ ""
        from hne'),
      if_pos (show (pickLoop {} rows).prefAcc ≠ "" from hne)]
    rfl

/-- **C9** (corrected).  Noninterference of the observable outputs in
the identifying values, given the amended hypothesis that the procedure
dates also agree on *validity*: (1) `load_patient`'s printed line and
summary are unchanged when MRN and date are replaced by values of equal
length whose date conversion succeeds or fails alike; (2) the search
setup's output depends on the patient only through the record id and the
two lengths; (3) `extract_accession`'s output is invariant under any
length-preserving renaming of the rows' accession values; (4)
`save_to_redcap`'s output depends on the accession only through its
length. -/
theorem c9_noninterference_amended :
    (∀ (rid : String) (raw1 raw2 : RawRec),
      raw1.error = raw2.error →
      raw1.mrn.length = raw2.mrn.length →
      raw1.proc_date.length = raw2.proc_date.length →
      (_convert_date_for_nilread raw1.proc_date).toOption.isSome =
        (_convert_date_for_nilread raw2.proc_date).toOption.isSome →
      raw1.access_site_1 = raw2.access_site_1 →
      raw1.access_site_2 = raw2.access_site_2 →
      load_patient_obs rid raw1 = load_patient_obs rid raw2) ∧
    (∀ p1 p2 : Patient,
      p1.record_id = p2.record_id →
      p1.mrn.length = p2.mrn.length →
      p1.proc_date_nilread.length = p2.proc_date_nilread.length →
      setup_nilread_search_obs p1 = setup_nilread_search_obs p2) ∧
    (∀ (rid : String) (rows : List StudyRow) (f : String → String),
      (∀ s, (f s).length = s.length) →
      extract_accession_obs rid (rows.map (renameRowAcc f)) =
        extract_accession_obs rid rows) ∧
    (∀ (rid : String) (acc1 acc2 : Option String) (selection : List Nat)
        (comments : String) (http_status : Nat),
      (acc1.getD "").length = (acc2.getD "").length →
      save_to_redcap_obs rid acc1 selection comments http_status =
        save_to_redcap_obs rid acc2 selection comments http_status) := by
  refine ⟨?_, ?_, ?_, ?_⟩
  · intro rid raw1 raw2 herr hmrn hdate hvalid has1 has2
    unfold load_patient_obs _fetch_patient_data
    rw [herr]
    cases he : raw2.error with
    | some e => rfl
    | none =>
      by_cases hm : raw2.mrn = ""
      · have hm1 : raw1.mrn = "" := by
          rw [str_eq_empty_iff_length, hmrn, ← str_eq_empty_iff_length]
          exact hm
        rw [if_pos hm, if_pos hm1]
      · have hm1 : raw1.mrn ≠ "" := ne_empty_of_length_eq hmrn hm
        rw [if_neg hm, if_neg hm1]
        by_cases hd : raw2.proc_date = ""
        · have hd1 : raw1.proc_date = "" := by
            rw [str_eq_empty_iff_length, hdate, ← str_eq_empty_iff_length]
            exact hd
          rw [if_pos hd, if_pos hd1]
        · have hd1 : raw1.proc_date ≠ "" := ne_empty_of_length_eq hdate hd
          rw [if_neg hd, if_neg hd1]
          cases hc1 : _convert_date_for_nilread raw1.proc_date with
          | error e1 =>
            cases hc2 : _convert_date_for_nilread raw2.proc_date with
            | error e2 => rfl
            | ok nd2 =>
              rw [hc1, hc2] at hvalid
              simp [Except.toOption] at hvalid
          | ok nd1 =>
            cases hc2 : _convert_date_for_nilread raw2.proc_date with
            | error e2 =>
              rw [hc1, hc2] at hvalid
              simp [Except.toOption] at hvalid
            | ok nd2 =>
              conv_lhs => whnf
              conv_rhs => whnf
              rw [hmrn, hdate, has1, has2]
  · intro p1 p2 hrid hm hd
    unfold setup_nilread_search_obs
    rw [hrid, hm, hd]
  · intro rid rows f hf
    unfold extract_accession_obs
    rw [pickBestRow_rename hf]
    cases hp : pickBestRow rows with
    | none => rfl
    | some res =>
      show extract_pick_obs rid (some (renameResAcc f res)) =
        extract_pick_obs rid (some res)
      simp only [extract_pick_obs]
      have hlen : (renameResAcc f res).accession.length =
          res.accession.length := hf res.accession
      by_cases he : res.accession = ""
      · have he' : (renameResAcc f res).accession = "" := by
          rw [str_eq_empty_iff_length, hlen, ← str_eq_empty_iff_length]
          exact he
        rw [if_pos he, if_pos he']
      · have he' : (renameResAcc f res).accession ≠ "" := by
          intro hc
          rw [str_eq_empty_iff_length, hlen,
            ← str_eq_empty_iff_length] at hc
          exact he hc
        rw [if_neg he, if_neg he']
        rw [hlen]
        rfl
  · intro rid acc1 acc2 selection comments http_status hlen
    unfold save_to_redcap_obs
    rw [hlen]

theorem length_mapZ (s : String) :
    (String.mk (s.toList.map (fun _ => 'Z'))).length = s.length := by
  cases s with
  | mk l => simp [String.length, String.toList]

/-- **C9 counterexample**: two runs differing only in the procedure-date
value, with equal lengths (`"01-15-2024"` vs the invalid `"13-15-2024"`),
produce different `load_patient` output (a loaded summary vs the
invalid-date warning) — the claim's equal-length condition alone does not
make the outputs identical; agreement on date validity is also
required. -/
theorem c9_date_validity_cex :
    load_patient_obs "100"
        { error := none, mrn := "123456789", proc_date := "01-15-2024",
          access_site_1 := "1", access_site_2 := "" } ≠
      load_patient_obs "100"
        { error := none, mrn := "123456789", proc_date := "13-15-2024",
          access_site_1 := "1", access_site_2 := "" } ∧
    ("01-15-2024" : String).length = ("13-15-2024" : String).length :=
  ⟨by decide, rfl⟩

/-- **C9 witness**: changing the MRN and date to equal-length valid
values, the accession to an equal-length value, and every row accession
to a same-length string leaves each observable unchanged. -/
theorem c9_noninterference_witness :
    load_patient_obs "100"
        { error := none, mrn := "123456789", proc_date := "01-15-2024",
          access_site_1 := "1", access_site_2 := "" } =
      load_patient_obs "100"
        { error := none, mrn := "987654321", proc_date := "11-20-2023",
          access_site_1 := "1", access_site_2 := "" } ∧
    save_to_redcap_obs "100" (some "ABCDE") [2] "" 200 =
      save_to_redcap_obs "100" (some "VWXYZ") [2] "" 200 ∧
    extract_accession_obs "100"
        ([⟨"NR FL Angio", "XA", 4, "XXXX"⟩].map
          (renameRowAcc (fun s => String.mk (s.toList.map (fun _ => 'Z'))))) =
      extract_accession_obs "100" [⟨"NR FL Angio", "XA", 4, "XXXX"⟩] := by
  refine ⟨?_, ?_, ?_⟩
  · exact c9_noninterference_amended.1 "100"
      { error := none, mrn := "123456789", proc_date := "01-15-2024",
        access_site_1 := "1", access_site_2 := "" }
      { error := none, mrn := "987654321", proc_date := "11-20-2023",
        access_site_1 := "1", access_site_2 := "" }
      rfl (by decide) (by decide) (by decide) rfl rfl
  · exact c9_noninterference_amended.2.2.2 "100" (some "ABCDE")
      (some "VWXYZ") [2] "" 200 (by decide)
  · exact c9_noninterference_amended.2.2.1 "100"
      [⟨"NR FL Angio", "XA", 4, "XXXX"⟩]
      (fun s => String.mk (s.toList.map (fun _ => 'Z'))) length_mapZ

end Femoral
